import Mathlib

/-!
Verification of the hp-cars-uploader order-lifecycle core.

The definitions below are a shallow embedding of the JavaScript handlers in
src/server.js (the canonical payment-aware variant), src/index.js (the legacy
status CRUD variant) and the src/unnamed/part_000 uploader variant.  Orders
are records of strings and numbers exactly as in the JSON store; a route
handler becomes a pure function from its request inputs and the current store
to an HTTP status code and the new store.  The Date.now() timestamp is passed
in as an explicit parameter.  Fields that the core never reads (vehicle
metadata, the requested-option booleans) are pass-through data and are
omitted from the record; every field any handler reads or writes is present.
-/

namespace HPCars

/-- One order record as pushed to the orders array by POST /uploadBin in
src/server.js lines 168 to 184. -/
structure Order where
  orderId : String
  userEmail : String
  comments : String
  originalFileName : String
  originalFileUrl : String
  resultFileName : String
  resultFileUrl : String
  status : String
  paymentProvider : String
  paymentId : String
  paymentStatus : String
  rating : Int
  feedback : String
  createdAt : Nat
  updatedAt : Nat
deriving DecidableEq

/-- Embeds the JavaScript idiom findIndex followed by in-place mutation of
db.orders[idx]: the first element satisfying the predicate is replaced by its
image under f, all other elements are untouched. -/
def updateFirst {α : Type} (p : α → Prop) [DecidablePred p] (f : α → α) : List α → List α
  | [] => []
  | o :: l => if p o then f o :: l else o :: updateFirst p f l

/-- Embeds findIndex used only as an existence test: the first element
satisfying the predicate, if any. -/
def findFirst {α : Type} (p : α → Prop) [DecidablePred p] : List α → Option α
  | [] => none
  | o :: l => if p o then some o else findFirst p l

/-- Embeds findIndex followed by splice(idx, 1): the first element satisfying
the predicate is removed. -/
def removeFirst {α : Type} (p : α → Prop) [DecidablePred p] : List α → List α
  | [] => []
  | o :: l => if p o then l else o :: removeFirst p l

/-- The fresh order built by POST /uploadBin (src/server.js lines 168 to 184):
status uploaded, empty result reference, empty payment fields, rating 0. -/
def newOrder (oid email comments origBase publicBase : String) (now : Nat) : Order :=
  { orderId := oid
    userEmail := email
    comments := comments
    originalFileName := origBase
    originalFileUrl := publicBase ++ "/files/" ++ origBase
    resultFileName := ""
    resultFileUrl := ""
    status := "uploaded"
    paymentProvider := ""
    paymentId := ""
    paymentStatus := ""
    rating := 0
    feedback := ""
    createdAt := now
    updatedAt := now }

/-- POST /uploadBin, src/server.js lines 145 to 193: with no file the request
fails 400; otherwise the new order is appended to the store. -/
def uploadBin (oid email comments : String) (file : Option String) (publicBase : String)
    (now : Nat) (db : List Order) : Nat × List Order :=
  match file with
  | none => (400, db)
  | some base => (200, db ++ [newOrder oid email comments base publicBase now])

/-- GET /orders, src/server.js lines 196 to 201: the email is the query
parameter, else the authenticated identity, else empty; an empty email yields
the empty list, otherwise the orders whose owner email equals it after
lowercasing both sides. -/
def getOrders (queryEmail identEmail : String) (db : List Order) : List Order :=
  let email := if queryEmail = "" then identEmail else queryEmail
  if email = "" then []
  else db.filter (fun o => decide (o.userEmail.toLower = email.toLower))

/-- GET /admin/orders, src/server.js lines 204 to 210: a request whose
x-admin-key header (empty when absent) differs from ADMIN_KEY fails 401 and
sees nothing; otherwise the full store is returned. -/
def adminOrders (keyHeader adminKey : String) (db : List Order) : Nat × Option (List Order) :=
  if keyHeader ≠ adminKey then (401, none) else (200, some db)

/-- The per-order mutation of POST /orders/:orderId/mark-ready, src/server.js
lines 222 to 224: the result URL is overwritten only when one was supplied
(the JavaScript resultFileUrl-or-old idiom), status becomes ready. -/
def markReadyApply (resultFileUrl : String) (now : Nat) (o : Order) : Order :=
  { o with resultFileUrl := if resultFileUrl = "" then o.resultFileUrl else resultFileUrl
           status := "ready"
           updatedAt := now }

/-- POST /orders/:orderId/mark-ready, src/server.js lines 213 to 227: admin
key check, then 404 on unknown orderId, then the first matching order is
marked ready. -/
def markReady (keyHeader adminKey oid resultFileUrl : String) (now : Nat)
    (db : List Order) : Nat × List Order :=
  if keyHeader ≠ adminKey then (401, db)
  else
    match findFirst (fun o => o.orderId = oid) db with
    | none => (404, db)
    | some _ => (200, updateFirst (fun o => o.orderId = oid) (markReadyApply resultFileUrl now) db)

/-- The clamp applied to the submitted rating in src/server.js line 236,
Math.max(0, Math.min(5, parseInt(rating, 10) or 0)); on an integer input the
parseInt-or-0 fallback is the identity, so the stored value is the clamp. -/
def clampRating (n : Int) : Int := max 0 (min 5 n)

/-- The per-order mutation of POST /orders/:orderId/rate, src/server.js lines
236 to 238: clamped rating, feedback truncated to 2000 characters, fresh
updatedAt; no other field is touched. -/
def rateApply (n : Int) (fb : String) (now : Nat) (o : Order) : Order :=
  { o with rating := clampRating n
           feedback := fb.take 2000
           updatedAt := now }

/-- POST /orders/:orderId/rate, src/server.js lines 230 to 241: the lookup
keys on both orderId and the requesting identity; no match yields 404 with
the store untouched, a match stores the clamped rating.  There is no check of
the order status anywhere in the handler. -/
def rateOrder (identEmail oid : String) (n : Int) (fb : String) (now : Nat)
    (db : List Order) : Nat × List Order :=
  match findFirst (fun o => o.orderId = oid ∧ o.userEmail = identEmail) db with
  | none => (404, db)
  | some _ =>
      (200, updateFirst (fun o => o.orderId = oid ∧ o.userEmail = identEmail)
        (rateApply n fb now) db)

/-- DELETE /orders/:orderId, src/server.js lines 244 to 255: admin key check,
404 on unknown orderId, else the first matching order is removed. -/
def deleteOrder (keyHeader adminKey oid : String) (db : List Order) : Nat × List Order :=
  if keyHeader ≠ adminKey then (401, db)
  else
    match findFirst (fun o => o.orderId = oid) db with
    | none => (404, db)
    | some _ => (200, removeFirst (fun o => o.orderId = oid) db)

/-- The whole mutable state touched by POST /uploadResult in src/server.js:
the order store and the set of artifact files stored in RESULTS_DIR. -/
structure ServerState where
  orders : List Order
  resultFiles : List String
deriving DecidableEq

/-- The per-order mutation of POST /uploadResult, src/server.js lines 272 to
275: result name and URL are set and status becomes ready. -/
def uploadResultApply (fname url : String) (now : Nat) (o : Order) : Order :=
  { o with resultFileName := fname
           resultFileUrl := url
           status := "ready"
           updatedAt := now }

/-- POST /uploadResult, src/server.js lines 258 to 298.  The multer middleware
uploadResult.single runs before the handler body, so a supplied file is
written to RESULTS_DIR before the admin key is checked.  Then: 401 on key
mismatch, 400 with no file, else the first order matching a non-empty orderId
is marked ready with the result reference, and if SMTP is configured and an
email was supplied the mail is sent inside the same try block, so a mail
failure falls into the catch and turns the response into a 500 even though
saveOrders already ran. -/
def uploadResultServer (keyHeader adminKey publicBase : String) (file : Option String)
    (email oid : String) (smtpConfigured mailFails : Bool) (now : Nat)
    (st : ServerState) : Nat × ServerState :=
  let st1 : ServerState :=
    match file with
    | some fname => { st with resultFiles := st.resultFiles ++ [fname] }
    | none => st
  if keyHeader ≠ adminKey then (401, st1)
  else
    match file with
    | none => (400, st1)
    | some fname =>
        let url := publicBase ++ "/results/" ++ fname
        let st2 : ServerState :=
          if oid ≠ "" then
            { st1 with orders :=
                updateFirst (fun o => o.orderId = oid) (uploadResultApply fname url now) st1.orders }
          else st1
        if smtpConfigured ∧ email ≠ "" ∧ mailFails then (500, st2) else (200, st2)

/-- The request body of the Mercado Pago webhook as the handler sees it: the
handler reads only body.data.orderId (src/server.js line 328); the status
carried by the notification is never read. -/
structure MPBody where
  dataOrderId : String
  dataStatus : String
deriving DecidableEq

/-- The per-order mutation of the Mercado Pago webhook, src/server.js lines
333 to 336: paymentStatus approved, provider mercadopago, status paid,
whatever the current status is. -/
def mpApply (now : Nat) (o : Order) : Order :=
  { o with paymentStatus := "approved"
           paymentProvider := "mercadopago"
           status := "paid"
           updatedAt := now }

/-- POST /payments/mp/webhook, src/server.js lines 324 to 344: the orderId is
body.data.orderId, else the query parameter, else empty; when non-empty the
first matching order is marked paid and approved.  The notification status is
not consulted and the handler always answers 200. -/
def mpWebhook (body : MPBody) (queryOrderId : String) (now : Nat)
    (db : List Order) : List Order :=
  let oid := if body.dataOrderId = "" then queryOrderId else body.dataOrderId
  if oid = "" then db
  else updateFirst (fun o => o.orderId = oid) (mpApply now) db

/-- The per-order mutation of the PayPal capture route, src/server.js lines
383 to 386. -/
def paypalApply (now : Nat) (o : Order) : Order :=
  { o with paymentStatus := "approved"
           paymentProvider := "paypal"
           status := "paid"
           updatedAt := now }

/-- POST /payments/paypal/capture-order, src/server.js lines 372 to 394:
400 when either id is missing; the store is mutated exactly when the capture
response status is COMPLETED, marking the first matching order paid whatever
its current status; the route then answers 200. -/
def paypalCapture (paypalOrderId oid captureStatus : String) (now : Nat)
    (db : List Order) : Nat × List Order :=
  if paypalOrderId = "" ∨ oid = "" then (400, db)
  else if captureStatus = "COMPLETED" then
    (200, updateFirst (fun o => o.orderId = oid) (paypalApply now) db)
  else (200, db)

/-- One record of the legacy variant in src/index.js (only the fields its
status route reads or writes). -/
structure LegacyOrder where
  orderId : String
  status : String
  updatedAt : Nat
deriving DecidableEq

/-- The allowed list of POST /api/orders/:orderId/status, src/index.js
line 129. -/
def legacyAllowed : List String := ["pending", "in_progress", "ready", "delivered", "rejected"]

/-- POST /api/orders/:orderId/status, src/index.js lines 126 to 138: 400 when
the requested status is not in the allowed list, 404 on unknown orderId, else
the status is overwritten with the requested one with no reference to the
current status. -/
def setOrderStatus (oid status : String) (now : Nat)
    (db : List LegacyOrder) : Nat × List LegacyOrder :=
  if status ∉ legacyAllowed then (400, db)
  else
    match findFirst (fun o => o.orderId = oid) db with
    | none => (404, db)
    | some _ =>
        (200, updateFirst (fun o => o.orderId = oid)
          (fun o => { o with status := status, updatedAt := now }) db)

/-- The response of POST /uploadResult in src/unnamed/part_000 lines 146 to
185: HTTP code, the ok flag, the mailed flag and whether mailError is set. -/
structure Result000 where
  code : Nat
  ok : Bool
  mailed : Bool
  mailErrorSet : Bool
deriving DecidableEq

/-- POST /uploadResult of the part_000 variant, src/unnamed/part_000 lines
146 to 185: when an admin key is configured, an absent or mismatched header
fails 401 before the upload middleware runs, so no file is stored; a multer
error fails 400; otherwise the file is stored, the mail attempt runs inside
its own try block so a failure only sets mailError, and the response is
always ok with code 200. -/
def uploadResult000 (adminKey keyHeader : String) (uploadErr : Bool) (fname : String)
    (custEmail : String) (smtpConfigured mailFails : Bool)
    (files : List String) : Result000 × List String :=
  if adminKey ≠ "" ∧ keyHeader ≠ adminKey then
    ({ code := 401, ok := false, mailed := false, mailErrorSet := false }, files)
  else if uploadErr then
    ({ code := 400, ok := false, mailed := false, mailErrorSet := false }, files)
  else
    let files1 := files ++ [fname]
    if smtpConfigured ∧ custEmail ≠ "" then
      if mailFails then
        ({ code := 200, ok := true, mailed := false, mailErrorSet := true }, files1)
      else
        ({ code := 200, ok := true, mailed := true, mailErrorSet := false }, files1)
    else
      ({ code := 200, ok := true, mailed := false, mailErrorSet := false }, files1)

/-- The forward ordering of section 4.2 of the spec on the non-terminal
payment-aware statuses: uploaded before paid before ready before delivered. -/
def statusRank : String → Nat
  | "paid" => 1
  | "ready" => 2
  | "delivered" => 3
  | _ => 0

/-- An order carries a result reference when either component of
resultFileRef is non-empty. -/
def hasResult (o : Order) : Prop := o.resultFileName ≠ "" ∨ o.resultFileUrl ≠ ""

/-- The section 3 invariant: resultFileRef is non-empty only on orders whose
status is ready or delivered. -/
def resultInv (db : List Order) : Prop :=
  ∀ o ∈ db, hasResult o → o.status = "ready" ∨ o.status = "delivered"

instance (o : Order) : Decidable (hasResult o) := by
  unfold hasResult; infer_instance

instance (db : List Order) : Decidable (resultInv db) := by
  unfold resultInv; exact List.decidableBAll _ db

theorem updateFirst_append_cons {α : Type} (p : α → Prop) [DecidablePred p] (f : α → α)
    (l₁ : List α) (o : α) (l₂ : List α) (h₁ : ∀ x ∈ l₁, ¬ p x) (h₂ : p o) :
    updateFirst p f (l₁ ++ o :: l₂) = l₁ ++ f o :: l₂ := by
  induction l₁ with
  | nil => simp [updateFirst, h₂]
  | cons a l ih =>
      have ha : ¬ p a := h₁ a (by simp)
      simp only [List.cons_append, updateFirst, if_neg ha, List.append_eq]
      rw [ih (fun x hx => h₁ x (by simp [hx]))]

theorem findFirst_append_cons {α : Type} (p : α → Prop) [DecidablePred p]
    (l₁ : List α) (o : α) (l₂ : List α) (h₁ : ∀ x ∈ l₁, ¬ p x) (h₂ : p o) :
    findFirst p (l₁ ++ o :: l₂) = some o := by
  induction l₁ with
  | nil => simp [findFirst, h₂]
  | cons a l ih =>
      have ha : ¬ p a := h₁ a (by simp)
      simp only [List.cons_append, findFirst, if_neg ha, List.append_eq]
      exact ih (fun x hx => h₁ x (by simp [hx]))

theorem findFirst_eq_none {α : Type} (p : α → Prop) [DecidablePred p]
    (l : List α) (h : ∀ x ∈ l, ¬ p x) : findFirst p l = none := by
  induction l with
  | nil => rfl
  | cons a l ih =>
      have ha : ¬ p a := h a (by simp)
      simp only [findFirst, if_neg ha]
      exact ih (fun x hx => h x (by simp [hx]))

theorem updateFirst_map_eq {α β : Type} (p : α → Prop) [DecidablePred p] (f : α → α)
    (g : α → β) (l : List α) (h : ∀ o ∈ l, p o → g (f o) = g o) :
    (updateFirst p f l).map g = l.map g := by
  induction l with
  | nil => rfl
  | cons a l ih =>
      by_cases ha : p a
      · simp only [updateFirst, if_pos ha, List.map_cons]
        rw [h a (by simp) ha]
      · simp only [updateFirst, if_neg ha, List.map_cons]
        rw [ih (fun o ho hp => h o (by simp [ho]) hp)]

theorem updateFirst_idem {α : Type} (p : α → Prop) [DecidablePred p] (f : α → α)
    (hp : ∀ o, p o → p (f o)) (hf : ∀ o, p o → f (f o) = f o) (l : List α) :
    updateFirst p f (updateFirst p f l) = updateFirst p f l := by
  induction l with
  | nil => rfl
  | cons a l ih =>
      by_cases ha : p a
      · simp only [updateFirst, if_pos ha, if_pos (hp a ha)]
        rw [hf a ha]
      · simp only [updateFirst, if_neg ha]
        rw [ih]

theorem mem_updateFirst {α : Type} (p : α → Prop) [DecidablePred p] (f : α → α)
    (l : List α) (x : α) (hx : x ∈ updateFirst p f l) :
    x ∈ l ∨ ∃ o, o ∈ l ∧ x = f o := by
  induction l with
  | nil => simp [updateFirst] at hx
  | cons a l ih =>
      by_cases ha : p a
      · simp only [updateFirst, if_pos ha, List.mem_cons] at hx
        rcases hx with h | h
        · exact Or.inr ⟨a, by simp, h⟩
        · exact Or.inl (by simp [h])
      · simp only [updateFirst, if_neg ha, List.mem_cons] at hx
        rcases hx with h | h
        · exact Or.inl (by simp [h])
        · rcases ih h with h2 | ⟨o, ho, rfl⟩
          · exact Or.inl (by simp [h2])
          · exact Or.inr ⟨o, by simp [ho], rfl⟩

theorem mem_removeFirst {α : Type} (p : α → Prop) [DecidablePred p]
    (l : List α) (x : α) (hx : x ∈ removeFirst p l) : x ∈ l := by
  induction l with
  | nil => simp [removeFirst] at hx
  | cons a l ih =>
      by_cases ha : p a
      · simp only [removeFirst, if_pos ha] at hx
        simp [hx]
      · simp only [removeFirst, if_neg ha, List.mem_cons] at hx
        rcases hx with h | h
        · simp [h]
        · simp [ih h]

/-- Projection facts of the per-order mutations, read off the record updates. -/
theorem mpApply_status (now : Nat) (o : Order) : (mpApply now o).status = "paid" := rfl

theorem mpApply_orderId (now : Nat) (o : Order) : (mpApply now o).orderId = o.orderId := rfl

theorem paypalApply_orderId (now : Nat) (o : Order) : (paypalApply now o).orderId = o.orderId := rfl

theorem rateApply_status (n : Int) (fb : String) (now : Nat) (o : Order) :
    (rateApply n fb now o).status = o.status := rfl

theorem rateApply_rating (n : Int) (fb : String) (now : Nat) (o : Order) :
    (rateApply n fb now o).rating = clampRating n := rfl

/-- A sample order at status ready, result file attached, owned by a@x. -/
def sampleReady : Order :=
  { orderId := "o1", userEmail := "a@x", comments := "", originalFileName := "f.bin",
    originalFileUrl := "h/files/f.bin", resultFileName := "r.bin",
    resultFileUrl := "h/results/r.bin", status := "ready", paymentProvider := "",
    paymentId := "", paymentStatus := "", rating := 0, feedback := "", createdAt := 1,
    updatedAt := 2 }

/-- A sample order already delivered, result file attached. -/
def sampleDelivered : Order := { sampleReady with status := "delivered" }

/-- A sample freshly created order: status uploaded, no result, rating 0. -/
def sampleUploaded : Order :=
  { orderId := "o2", userEmail := "a@x", comments := "", originalFileName := "g.bin",
    originalFileUrl := "h/files/g.bin", resultFileName := "", resultFileUrl := "",
    status := "uploaded", paymentProvider := "", paymentId := "", paymentStatus := "",
    rating := 0, feedback := "", createdAt := 1, updatedAt := 1 }

/-- A sample order already paid and approved. -/
def samplePaid : Order := { sampleUploaded with status := "paid", paymentStatus := "approved" }

/-- Claim C1, counterexample: the claim says a payment confirmation for an
order already delivered leaves its status unchanged, but the PayPal capture
route (and likewise the Mercado Pago webhook) sets the status to paid, so an
order at delivered does not keep its status. -/
theorem c1_counterexample :
    sampleDelivered.status = "delivered" ∧
    (paypalCapture "pp1" "o1" "COMPLETED" 9 [sampleDelivered]).2.map Order.status = ["paid"] ∧
    ("paid" : String) ≠ "delivered" := by
  refine ⟨rfl, by decide, by decide⟩

/-- Claim C1 (amended): the payment-confirmed transition is a no-op on the
statuses only when every order carrying the confirmed orderId is already at
paid; and replaying the same confirmation with the same timestamp is
idempotent, for both the Mercado Pago webhook and the PayPal capture route.
For orders at ready or delivered the webhook resets the status to paid, as
the counterexample shows. -/
theorem c1_payment_confirmed_idempotent :
    (∀ (oid s : String) (now : Nat) (db : List Order), oid ≠ "" →
      (∀ o ∈ db, o.orderId = oid → o.status = "paid") →
      (mpWebhook ⟨oid, s⟩ "" now db).map Order.status = db.map Order.status) ∧
    (∀ (b : MPBody) (q : String) (now : Nat) (db : List Order),
      mpWebhook b q now (mpWebhook b q now db) = mpWebhook b q now db) ∧
    (∀ (pid oid cs : String) (now : Nat) (db : List Order),
      (paypalCapture pid oid cs now (paypalCapture pid oid cs now db).2).2
        = (paypalCapture pid oid cs now db).2) := by
  refine ⟨?_, ?_, ?_⟩
  · intro oid s now db hoid hpaid
    simp only [mpWebhook, if_neg hoid]
    exact updateFirst_map_eq _ _ _ db (fun o ho hp => by
      rw [mpApply_status, hpaid o ho hp])
  · intro b q now db
    simp only [mpWebhook]
    by_cases h : (if b.dataOrderId = "" then q else b.dataOrderId) = ""
    · simp [h]
    · simp only [if_neg h]
      apply updateFirst_idem
      · intro o hp
        rw [mpApply_orderId]
        exact hp
      · intro o _
        rfl
  · intro pid oid cs now db
    by_cases h0 : pid = "" ∨ oid = ""
    · simp [paypalCapture, h0]
    · by_cases hc : cs = "COMPLETED"
      · simp only [paypalCapture, if_neg h0, if_pos hc]
        apply updateFirst_idem
        · intro o hp
          rw [paypalApply_orderId]
          exact hp
        · intro o _
          rfl
      · simp [paypalCapture, if_neg h0, if_neg hc]

/-- Claim C1, witness: the amended theorem applied to a one-order store whose
order is already paid. -/
theorem c1_witness :
    ("o2" : String) ≠ "" ∧ (∀ o ∈ [samplePaid], o.orderId = "o2" → o.status = "paid") ∧
    (mpWebhook ⟨"o2", "approved"⟩ "" 5 [samplePaid]).map Order.status
      = [samplePaid].map Order.status :=
  ⟨by decide, by decide,
    c1_payment_confirmed_idempotent.1 "o2" "approved" 5 [samplePaid] (by decide) (by decide)⟩

/-- Claim C2, counterexample: an order at ready is moved back to paid by the
Mercado Pago webhook, a backward step in the section 4.2 ordering. -/
theorem c2_counterexample :
    sampleReady.status = "ready" ∧
    (mpWebhook ⟨"o1", "approved"⟩ "" 9 [sampleReady]).map Order.status = ["paid"] ∧
    statusRank "paid" < statusRank "ready" := by
  refine ⟨rfl, by decide, by decide⟩

/-- Claim C2 (amended): forward-only movement is not enforced.  The payment
webhook sets the first order matching the confirmed orderId to paid whatever
its current status, so ready and delivered orders move backward to paid; and
the legacy status route overwrites the status with any value from its allowed
list with no reference to the current status. -/
theorem c2_no_forward_only_enforcement :
    (∀ (l₁ l₂ : List Order) (o : Order) (oid s : String) (now : Nat),
      oid ≠ "" → o.orderId = oid → (∀ x ∈ l₁, ¬ x.orderId = oid) →
      mpWebhook ⟨oid, s⟩ "" now (l₁ ++ o :: l₂) = l₁ ++ mpApply now o :: l₂ ∧
      (mpApply now o).status = "paid") ∧
    (∀ (l₁ l₂ : List LegacyOrder) (o : LegacyOrder) (oid st : String) (now : Nat),
      st ∈ legacyAllowed → o.orderId = oid → (∀ x ∈ l₁, ¬ x.orderId = oid) →
      setOrderStatus oid st now (l₁ ++ o :: l₂)
        = (200, l₁ ++ { o with status := st, updatedAt := now } :: l₂)) := by
  constructor
  · intro l₁ l₂ o oid s now hoid ho h₁
    refine ⟨?_, rfl⟩
    simp only [mpWebhook, if_neg hoid]
    exact updateFirst_append_cons _ _ l₁ o l₂ h₁ ho
  · intro l₁ l₂ o oid st now hst ho h₁
    have hin : ¬ st ∉ legacyAllowed := by simp [hst]
    simp only [setOrderStatus, if_neg hin]
    rw [findFirst_append_cons _ l₁ o l₂ h₁ ho,
        updateFirst_append_cons _ _ l₁ o l₂ h₁ ho]

/-- Claim C2, witness: the amended theorem applied to a delivered order that
the webhook moves back to paid, and to a legacy delivered order that the
status route moves back to pending. -/
theorem c2_witness :
    (mpWebhook ⟨"o1", "approved"⟩ "" 9 ([] ++ sampleDelivered :: [])
        = [] ++ mpApply 9 sampleDelivered :: [] ∧
      (mpApply 9 sampleDelivered).status = "paid") ∧
    setOrderStatus "L1" "pending" 9 ([] ++ ({ orderId := "L1", status := "delivered", updatedAt := 3 } : LegacyOrder) :: [])
      = (200, [] ++ ({ orderId := "L1", status := "pending", updatedAt := 9 } : LegacyOrder) :: []) :=
  ⟨c2_no_forward_only_enforcement.1 [] [] sampleDelivered "o1" "approved" 9
      (by decide) (by decide) (by simp),
   c2_no_forward_only_enforcement.2 [] [] { orderId := "L1", status := "delivered", updatedAt := 3 }
      "L1" "pending" 9 (by decide) (by decide) (by simp)⟩

/-- Claim C3: the Mercado Pago webhook performs no normalization of the raw
notification status: the handler never reads it, so the store mutation is the
same for any raw status, and a non-approved (pending) notification for an
uploaded order marks it paid and approved instead of being discarded without
mutation.  This contradicts the comment inside the handler itself, which says
the payment must be verified to be approved. -/
theorem c3_webhook_ignores_raw_status :
    (∀ (oid s1 s2 q : String) (now : Nat) (db : List Order),
      mpWebhook ⟨oid, s1⟩ q now db = mpWebhook ⟨oid, s2⟩ q now db) ∧
    sampleUploaded.status = "uploaded" ∧ sampleUploaded.paymentStatus = "" ∧
    (mpWebhook ⟨"o2", "pending"⟩ "" 5 [sampleUploaded]).map
      (fun o => (o.status, o.paymentStatus)) = [("paid", "approved")] := by
  refine ⟨fun oid s1 s2 q now db => rfl, rfl, rfl, by decide⟩

/-- Claim C4, counterexample: the store holding one ready order with a result
file satisfies the invariant, but after the payment webhook confirms payment
for it the order is back at paid while still carrying its result file, so the
invariant is not preserved by the payment-confirmation operation. -/
theorem c4_counterexample :
    resultInv [sampleReady] ∧
    ¬ resultInv (mpWebhook ⟨"o1", "approved"⟩ "" 9 [sampleReady]) := by
  constructor
  · decide
  · decide

/-- Claim C4 (amended): the invariant that a non-empty resultFileRef implies
status ready or delivered is preserved by order creation, mark-ready, the
admin result upload, rating and deletion; the payment-confirmation webhook
does not preserve it, as the counterexample shows. -/
theorem c4_invariant_preserved_except_payment :
    (∀ (oid email c : String) (file : Option String) (pb : String) (now : Nat)
        (db : List Order), resultInv db →
      resultInv (uploadBin oid email c file pb now db).2) ∧
    (∀ (kh ak oid url : String) (now : Nat) (db : List Order), resultInv db →
      resultInv (markReady kh ak oid url now db).2) ∧
    (∀ (kh ak pb : String) (file : Option String) (em oid : String) (sc mf : Bool)
        (now : Nat) (st : ServerState), resultInv st.orders →
      resultInv ((uploadResultServer kh ak pb file em oid sc mf now st).2).orders) ∧
    (∀ (e oid : String) (n : Int) (fb : String) (now : Nat) (db : List Order),
      resultInv db → resultInv (rateOrder e oid n fb now db).2) ∧
    (∀ (kh ak oid : String) (db : List Order), resultInv db →
      resultInv (deleteOrder kh ak oid db).2) := by
  refine ⟨?_, ?_, ?_, ?_, ?_⟩
  · intro oid email c file pb now db hinv
    cases file with
    | none => exact hinv
    | some base =>
        intro o ho hr
        simp only [uploadBin, List.mem_append, List.mem_singleton] at ho
        rcases ho with ho | rfl
        · exact hinv o ho hr
        · exact absurd hr (by simp [hasResult, newOrder])
  · intro kh ak oid url now db hinv
    by_cases hk : kh ≠ ak
    · simpa [markReady, if_pos hk] using hinv
    · simp only [markReady, if_neg hk]
      cases hfind : findFirst (fun o => o.orderId = oid) db with
      | none => exact hinv
      | some w =>
          intro o ho hr
          rcases mem_updateFirst _ _ db o ho with h | ⟨x, hx, rfl⟩
          · exact hinv o h hr
          · exact Or.inl rfl
  · intro kh ak pb file em oid sc mf now st hinv
    simp only [uploadResultServer]
    cases file with
    | none =>
        by_cases hk : kh ≠ ak
        · simpa [if_pos hk] using hinv
        · simpa [if_neg hk] using hinv
    | some fname =>
        by_cases hk : kh ≠ ak
        · simpa [if_pos hk] using hinv
        · simp only [if_neg hk]
          by_cases hoid : oid ≠ ""
          · have hup : resultInv (updateFirst (fun o => o.orderId = oid)
                (uploadResultApply fname (pb ++ "/results/" ++ fname) now) st.orders) := by
              intro o ho hr
              rcases mem_updateFirst _ _ st.orders o ho with h | ⟨x, hx, rfl⟩
              · exact hinv o h hr
              · exact Or.inl rfl
            by_cases hm : sc ∧ em ≠ "" ∧ mf
            · simpa [if_pos hoid, if_pos hm] using hup
            · simpa [if_pos hoid, if_neg hm] using hup
          · by_cases hm : sc ∧ em ≠ "" ∧ mf
            · simpa [if_neg hoid, if_pos hm] using hinv
            · simpa [if_neg hoid, if_neg hm] using hinv
  · intro e oid n fb now db hinv
    simp only [rateOrder]
    cases hfind : findFirst (fun o => o.orderId = oid ∧ o.userEmail = e) db with
    | none => exact hinv
    | some w =>
        intro o ho hr
        rcases mem_updateFirst _ _ db o ho with h | ⟨x, hx, rfl⟩
        · exact hinv o h hr
        · have hx2 : hasResult x := hr
          have := hinv x hx hx2
          simpa [rateApply_status] using this
  · intro kh ak oid db hinv
    by_cases hk : kh ≠ ak
    · simpa [deleteOrder, if_pos hk] using hinv
    · simp only [deleteOrder, if_neg hk]
      cases hfind : findFirst (fun o => o.orderId = oid) db with
      | none => exact hinv
      | some w => exact fun o ho hr => hinv o (mem_removeFirst _ db o ho) hr

/-- Claim C4, witness: the preservation conjuncts applied to the one-order
sample store that satisfies the invariant. -/
theorem c4_witness :
    resultInv [sampleReady] ∧
    resultInv (markReady "k" "k" "o1" "u2" 9 [sampleReady]).2 ∧
    resultInv (rateOrder "a@x" "o1" 4 "good" 9 [sampleReady]).2 ∧
    resultInv (deleteOrder "k" "k" "o1" [sampleReady]).2 ∧
    resultInv (uploadBin "o9" "b@x" "" (some "n.bin") "h" 9 [sampleReady]).2 :=
  ⟨by decide,
   c4_invariant_preserved_except_payment.2.1 "k" "k" "o1" "u2" 9 [sampleReady] (by decide),
   c4_invariant_preserved_except_payment.2.2.2.1 "a@x" "o1" 4 "good" 9 [sampleReady] (by decide),
   c4_invariant_preserved_except_payment.2.2.2.2 "k" "k" "o1" [sampleReady] (by decide),
   c4_invariant_preserved_except_payment.1 "o9" "b@x" "" (some "n.bin") "h" 9 [sampleReady]
     (by decide)⟩

/-- Claim C5, counterexample: a rate request from b@x on an order owned by
a@x fails with 404 Not Found, not with 403 Forbidden, because the lookup keys
on both orderId and the requesting identity; the store is unchanged. -/
theorem c5_counterexample :
    sampleReady.userEmail = "a@x" ∧
    rateOrder "b@x" "o1" 4 "" 9 [sampleReady] = (404, [sampleReady]) ∧
    (404 : Nat) ≠ 403 := by
  refine ⟨rfl, by decide, by decide⟩

/-- Claim C5 (amended): a rate request whose identity owns no order with the
requested orderId fails with Not Found (404), the non-owner never seeing a
Forbidden distinction, and the store is returned unchanged. -/
theorem c5_non_owner_rate_not_found :
    ∀ (db : List Order) (e oid : String) (n : Int) (fb : String) (now : Nat),
      (∀ o ∈ db, o.orderId = oid → o.userEmail ≠ e) →
      rateOrder e oid n fb now db = (404, db) := by
  intro db e oid n fb now h
  have hnone : findFirst (fun o => o.orderId = oid ∧ o.userEmail = e) db = none :=
    findFirst_eq_none _ db (fun x hx hpx => h x hx hpx.1 hpx.2)
  simp [rateOrder, hnone]

/-- Claim C5, witness: the amended theorem applied to a one-order store whose
order is owned by a@x while the requester is b@x. -/
theorem c5_witness :
    (∀ o ∈ [sampleReady], o.orderId = "o1" → o.userEmail ≠ "b@x") ∧
    rateOrder "b@x" "o1" 4 "hi" 9 [sampleReady] = (404, [sampleReady]) :=
  ⟨by decide, c5_non_owner_rate_not_found [sampleReady] "b@x" "o1" 4 "hi" 9 (by decide)⟩

/-- Claim C6, counterexample: the owner rates an order still at uploaded and
the request succeeds with 200, storing rating 4 while the status stays
uploaded — there is no InvalidState failure and a non-zero rating exists on a
store whose order never reached ready. -/
theorem c6_counterexample :
    sampleUploaded.status = "uploaded" ∧ sampleUploaded.rating = 0 ∧
    (rateOrder "a@x" "o2" 4 "" 9 [sampleUploaded]).1 = 200 ∧
    (rateOrder "a@x" "o2" 4 "" 9 [sampleUploaded]).2.map (fun o => (o.rating, o.status))
      = [((4 : Int), "uploaded")] := by
  refine ⟨rfl, rfl, by decide, by decide⟩

/-- Claim C6 (amended): the rate route has no status gate: a request from the
owner succeeds at every status, storing the clamped rating and leaving the
status untouched, so a non-zero rating does not imply that the order ever
reached ready. -/
theorem c6_owner_rate_any_status :
    ∀ (l₁ l₂ : List Order) (o : Order) (e oid : String) (n : Int) (fb : String) (now : Nat),
      o.orderId = oid → o.userEmail = e →
      (∀ x ∈ l₁, ¬ (x.orderId = oid ∧ x.userEmail = e)) →
      rateOrder e oid n fb now (l₁ ++ o :: l₂) = (200, l₁ ++ rateApply n fb now o :: l₂) ∧
      (rateApply n fb now o).status = o.status := by
  intro l₁ l₂ o e oid n fb now h1 h2 hl
  refine ⟨?_, rfl⟩
  have hfind := findFirst_append_cons (fun x => x.orderId = oid ∧ x.userEmail = e)
    l₁ o l₂ hl ⟨h1, h2⟩
  have hupd := updateFirst_append_cons (fun x => x.orderId = oid ∧ x.userEmail = e)
    (rateApply n fb now) l₁ o l₂ hl ⟨h1, h2⟩
  simp [rateOrder, hfind, hupd]

/-- Claim C6, witness: the amended theorem applied to the owner rating an
order still at uploaded. -/
theorem c6_witness :
    rateOrder "a@x" "o2" 4 "" 9 ([] ++ sampleUploaded :: [])
        = (200, [] ++ rateApply 4 "" 9 sampleUploaded :: []) ∧
    (rateApply 4 "" 9 sampleUploaded).status = sampleUploaded.status :=
  c6_owner_rate_any_status [] [] sampleUploaded "a@x" "o2" 4 "" 9
    (by decide) (by decide) (by simp)

/-- Claim C7: a rate request by the owner stores the submitted integer
clamped into the range 0 to 5: the request succeeds and the stored rating is
the clamp, with -3 stored as 0 and 9 stored as 5. -/
theorem c7_rating_clamped :
    (∀ (l₁ l₂ : List Order) (o : Order) (e oid : String) (n : Int) (fb : String) (now : Nat),
      o.orderId = oid → o.userEmail = e →
      (∀ x ∈ l₁, ¬ (x.orderId = oid ∧ x.userEmail = e)) →
      rateOrder e oid n fb now (l₁ ++ o :: l₂) = (200, l₁ ++ rateApply n fb now o :: l₂) ∧
      (rateApply n fb now o).rating = max 0 (min 5 n)) ∧
    clampRating (-3) = 0 ∧ clampRating 9 = 5 := by
  refine ⟨?_, by decide, by decide⟩
  intro l₁ l₂ o e oid n fb now h1 h2 hl
  refine ⟨?_, rfl⟩
  have hfind := findFirst_append_cons (fun x => x.orderId = oid ∧ x.userEmail = e)
    l₁ o l₂ hl ⟨h1, h2⟩
  have hupd := updateFirst_append_cons (fun x => x.orderId = oid ∧ x.userEmail = e)
    (rateApply n fb now) l₁ o l₂ hl ⟨h1, h2⟩
  simp [rateOrder, hfind, hupd]

/-- Claim C7, witness: the theorem applied with submitted values -3 and 9,
whose stored ratings evaluate to 0 and 5. -/
theorem c7_witness :
    (rateOrder "a@x" "o1" (-3) "" 9 ([] ++ sampleReady :: [])
        = (200, [] ++ rateApply (-3) "" 9 sampleReady :: []) ∧
      (rateApply (-3) "" 9 sampleReady).rating = max 0 (min 5 (-3))) ∧
    (rateOrder "a@x" "o1" 9 "" 9 ([] ++ sampleReady :: [])
        = (200, [] ++ rateApply 9 "" 9 sampleReady :: []) ∧
      (rateApply 9 "" 9 sampleReady).rating = max 0 (min 5 9)) ∧
    (rateApply (-3) "" 9 sampleReady).rating = 0 ∧
    (rateApply 9 "" 9 sampleReady).rating = 5 :=
  ⟨c7_rating_clamped.1 [] [] sampleReady "a@x" "o1" (-3) "" 9 (by decide) (by decide) (by simp),
   c7_rating_clamped.1 [] [] sampleReady "a@x" "o1" 9 "" 9 (by decide) (by decide) (by simp),
   by decide, by decide⟩

/-- Claim C8, counterexample: the claim says no stored-file state changes on
a credential mismatch, but in the server.js result-upload route the upload
middleware runs before the admin key check, so the request fails 401 with the
order store untouched while the uploaded file has already been written. -/
theorem c8_counterexample :
    uploadResultServer "wrong" "secret" "h" (some "r2.bin") "" "" false false 1
        { orders := [], resultFiles := [] }
      = (401, { orders := [], resultFiles := ["r2.bin"] }) ∧
    (["r2.bin"] : List String) ≠ ([] : List String) := by
  refine ⟨by decide, by decide⟩

/-- Claim C8 (amended): every administrative operation with an absent or
mismatched credential fails 401 Unauthorized with the order store unchanged;
for the admin list, mark-ready and delete routes no state changes at all, and
in the part_000 variant the credential is checked before the upload is
accepted, but in the server.js result-upload route the uploaded file has
already been written to storage by the upload middleware when the 401 is
produced. -/
theorem c8_admin_gate :
    (∀ (kh ak : String) (db : List Order), kh ≠ ak →
      adminOrders kh ak db = (401, none)) ∧
    (∀ (kh ak oid url : String) (now : Nat) (db : List Order), kh ≠ ak →
      markReady kh ak oid url now db = (401, db)) ∧
    (∀ (kh ak oid : String) (db : List Order), kh ≠ ak →
      deleteOrder kh ak oid db = (401, db)) ∧
    (∀ (kh ak pb f em oid : String) (sc mf : Bool) (now : Nat) (st : ServerState), kh ≠ ak →
      uploadResultServer kh ak pb (some f) em oid sc mf now st
        = (401, { st with resultFiles := st.resultFiles ++ [f] })) ∧
    (∀ (ak kh : String) (ue : Bool) (f ce : String) (sc mf : Bool) (fl : List String),
      ak ≠ "" → kh ≠ ak →
      uploadResult000 ak kh ue f ce sc mf fl
        = ({ code := 401, ok := false, mailed := false, mailErrorSet := false }, fl)) := by
  refine ⟨?_, ?_, ?_, ?_, ?_⟩
  · intro kh ak db h
    simp [adminOrders, h]
  · intro kh ak oid url now db h
    simp [markReady, h]
  · intro kh ak oid db h
    simp [deleteOrder, h]
  · intro kh ak pb f em oid sc mf now st h
    simp [uploadResultServer, h]
  · intro ak kh ue f ce sc mf fl hak hkh
    simp [uploadResult000, hak, hkh]

/-- Claim C8, witness: the amended conjuncts applied with a wrong key against
concrete stores. -/
theorem c8_witness :
    ("bad" : String) ≠ "secret" ∧
    adminOrders "bad" "secret" [sampleReady] = (401, none) ∧
    markReady "bad" "secret" "o1" "u" 9 [sampleReady] = (401, [sampleReady]) ∧
    deleteOrder "bad" "secret" "o1" [sampleReady] = (401, [sampleReady]) ∧
    uploadResultServer "bad" "secret" "h" (some "z.bin") "a@x" "o1" false false 9
        { orders := [sampleReady], resultFiles := [] }
      = (401, { orders := [sampleReady], resultFiles := [] ++ ["z.bin"] }) ∧
    uploadResult000 "secret" "bad" false "z.bin" "a@x" false false []
      = ({ code := 401, ok := false, mailed := false, mailErrorSet := false }, []) :=
  ⟨by decide,
   c8_admin_gate.1 "bad" "secret" [sampleReady] (by decide),
   c8_admin_gate.2.1 "bad" "secret" "o1" "u" 9 [sampleReady] (by decide),
   c8_admin_gate.2.2.1 "bad" "secret" "o1" [sampleReady] (by decide),
   c8_admin_gate.2.2.2.1 "bad" "secret" "h" "z.bin" "a@x" "o1" false false 9
     { orders := [sampleReady], resultFiles := [] } (by decide),
   c8_admin_gate.2.2.2.2 "secret" "bad" false "z.bin" "a@x" false false [] (by decide) (by decide)⟩

/-- Claim C9, counterexample: in the server.js result-upload route a mail
failure happens inside the same try block as the order mutation, so the
response is a 500 error — a caller-visible error, not a non-fatal flag in a
success response — even though the order was already marked ready and the
mutation is kept. -/
theorem c9_counterexample :
    (uploadResultServer "k" "k" "h" (some "r2.bin") "a@x" "o2" true true 9
        { orders := [sampleUploaded], resultFiles := [] }).1 = 500 ∧
    ((uploadResultServer "k" "k" "h" (some "r2.bin") "a@x" "o2" true true 9
        { orders := [sampleUploaded], resultFiles := [] }).2).orders.map Order.status
      = ["ready"] := by
  refine ⟨by decide, by decide⟩

/-- Claim C9 (amended): a mail failure never blocks or reverts the order
mutation: in server.js the order is marked ready and that state persists even
though the response then becomes a 500 error; in the part_000 variant the
failure is reported only as a mailError flag in an ok 200 response with the
file stored. -/
theorem c9_mail_failure_behavior :
    (∀ (ak pb f em : String) (l₁ l₂ : List Order) (o : Order) (oid : String) (now : Nat)
        (fl : List String),
      oid ≠ "" → em ≠ "" → o.orderId = oid → (∀ x ∈ l₁, ¬ x.orderId = oid) →
      uploadResultServer ak ak pb (some f) em oid true true now
          { orders := l₁ ++ o :: l₂, resultFiles := fl }
        = (500, { orders := l₁ ++ uploadResultApply f (pb ++ "/results/" ++ f) now o :: l₂,
                  resultFiles := fl ++ [f] }) ∧
      (uploadResultApply f (pb ++ "/results/" ++ f) now o).status = "ready") ∧
    (∀ (ak f ce : String) (fl : List String), ce ≠ "" →
      uploadResult000 ak ak false f ce true true fl
        = ({ code := 200, ok := true, mailed := false, mailErrorSet := true }, fl ++ [f])) := by
  constructor
  · intro ak pb f em l₁ l₂ o oid now fl hoid hem ho hl
    refine ⟨?_, rfl⟩
    have hupd := updateFirst_append_cons (fun x => x.orderId = oid)
      (uploadResultApply f (pb ++ "/results/" ++ f) now) l₁ o l₂ hl ho
    simp [uploadResultServer, hoid, hem, hupd]
  · intro ak f ce fl hce
    simp [uploadResult000, hce]

/-- Claim C9, witness: the amended theorem applied to a concrete failing mail
send for an existing uploaded order and for the part_000 route. -/
theorem c9_witness :
    (uploadResultServer "k" "k" "h" (some "r2.bin") "a@x" "o2" true true 9
        { orders := [] ++ sampleUploaded :: [], resultFiles := [] }
      = (500, { orders := [] ++ uploadResultApply "r2.bin" ("h" ++ "/results/" ++ "r2.bin") 9
                  sampleUploaded :: [],
                resultFiles := [] ++ ["r2.bin"] }) ∧
      (uploadResultApply "r2.bin" ("h" ++ "/results/" ++ "r2.bin") 9 sampleUploaded).status
        = "ready") ∧
    uploadResult000 "k" "k" false "r2.bin" "a@x" true true []
      = ({ code := 200, ok := true, mailed := false, mailErrorSet := true }, [] ++ ["r2.bin"]) :=
  ⟨c9_mail_failure_behavior.1 "k" "h" "r2.bin" "a@x" [] [] sampleUploaded "o2" 9 []
     (by decide) (by decide) (by decide) (by simp),
   c9_mail_failure_behavior.2 "k" "r2.bin" "a@x" [] (by decide)⟩

/-- Claim C10: the customer list route with an empty query email and an empty
authenticated identity returns the empty list, and with a non-empty email it
returns exactly the orders whose owner email equals it after lowercasing both
sides. -/
theorem c10_get_orders_filter :
    (∀ db : List Order, getOrders "" "" db = []) ∧
    (∀ (db : List Order) (e ident : String) (o : Order), e ≠ "" →
      (o ∈ getOrders e ident db ↔ o ∈ db ∧ o.userEmail.toLower = e.toLower)) := by
  constructor
  · intro db
    rfl
  · intro db e ident o he
    simp [getOrders, if_neg he, List.mem_filter]

/-- Claim C10, witness: the second conjunct applied to the sample store with
a differently capitalized query email. -/
theorem c10_witness :
    ("A@X" : String) ≠ "" ∧
    (sampleReady ∈ getOrders "A@X" "" [sampleReady] ↔
      sampleReady ∈ [sampleReady] ∧ sampleReady.userEmail.toLower = ("A@X" : String).toLower) :=
  ⟨by decide, c10_get_orders_filter.2 [sampleReady] "A@X" "" sampleReady (by decide)⟩

end HPCars
